import Mathlib

/-!
Verification development for the alert-monitoring server (`server-prog.js`).

The ingestion / dedup / retention / aggregation pipeline is shallowly
embedded: JavaScript objects keyed by strings become association lists in
insertion order, the two persisted documents (`alerts.json`,
`processed_alerts.json`) become an `AlertStore` and a list of processed ids,
and clock values are epoch milliseconds (`Int`).  Date strings entering the
pipeline (`alert.time` / `alert.timestamp`) are modelled as already-parsed
epoch milliseconds, i.e. we consider the runs in which every incoming date
string is a valid date; `new Date(ms).toISOString()` round-trips through the
same milliseconds, so the stored `timestamp` field is kept as an `Int`.
The server's local timezone enters as an explicit offset in milliseconds
(`toTimeString` formats local time, `toISOString` formats UTC).
-/

namespace AlarmGame

/-! ### Small JavaScript-flavoured helpers -/

/-- Digits of a character list interpreted in base 10, consuming the longest
leading run of digits.  Returns the value and whether at least one digit was
seen. -/
def digitsAux : List Char → Nat → Bool → Nat × Bool
  | [], acc, seen => (acc, seen)
  | c :: cs, acc, seen =>
    if c.isDigit then digitsAux cs (acc * 10 + (c.toNat - 48)) true
    else (acc, seen)

/-- `parseInt` (decimal): optional sign followed by a longest run of leading
digits; `none` models `NaN` (no leading digit). -/
def parseIntOpt (s : String) : Option Int :=
  match s.data with
  | '-' :: cs =>
    let (v, seen) := digitsAux cs 0 false
    if seen then some (-(v : Int)) else none
  | '+' :: cs =>
    let (v, seen) := digitsAux cs 0 false
    if seen then some (v : Int) else none
  | cs =>
    let (v, seen) := digitsAux cs 0 false
    if seen then some (v : Int) else none

/-- `Number(s)` coerced by `ToIntegerOrInfinity`, for the query strings the
endpoints see: the empty string is `0`, an (optionally signed) all-digit
string is its value, anything else is `NaN`, which `ToIntegerOrInfinity`
sends to `0`. -/
def jsNumberInt (s : String) : Int :=
  match s.data with
  | [] => 0
  | '-' :: cs => if cs ≠ [] ∧ cs.all Char.isDigit then -((digitsAux cs 0 false).1 : Int) else 0
  | cs => if cs.all Char.isDigit then ((digitsAux cs 0 false).1 : Int) else 0

/-- `String.prototype.split(sep)` for a one-character separator, on the
character list. -/
def splitCharAux (sep : Char) : List Char → List Char → List String
  | [], acc => [String.mk acc.reverse]
  | c :: cs, acc =>
    if c = sep then String.mk acc.reverse :: splitCharAux sep cs []
    else splitCharAux sep cs (c :: acc)

/-- `s.split(sep)` for a single-character separator. -/
def jsSplit (s : String) (sep : Char) : List String :=
  splitCharAux sep s.data []

/-! ### Date formatting (`toISOString` date part, `toTimeString` HH:MM) -/

/-- Civil date (year, month, day) from days since the Unix epoch, proleptic
Gregorian — the calendar arithmetic behind `Date.prototype.toISOString`. -/
def civilFromDays (z0 : Int) : Int × Int × Int :=
  let z := z0 + 719468
  let era := Int.fdiv z 146097
  let doe := z - era * 146097
  let yoe := Int.fdiv (doe - Int.fdiv doe 1460 + Int.fdiv doe 36524 - Int.fdiv doe 146096) 365
  let y := yoe + era * 400
  let doy := doe - (365 * yoe + Int.fdiv yoe 4 - Int.fdiv yoe 100)
  let mp := Int.fdiv (5 * doy + 2) 153
  let d := doy - Int.fdiv (153 * mp + 2) 5 + 1
  let m := if mp < 10 then mp + 3 else mp - 9
  (if m ≤ 2 then y + 1 else y, m, d)

/-- Two-digit zero padding of a (nonnegative) field. -/
def pad2 (n : Int) : String :=
  if n < 10 then "0" ++ toString n else toString n

/-- Four-digit zero padding of the year. -/
def pad4 (n : Int) : String :=
  if n < 10 then "000" ++ toString n
  else if n < 100 then "00" ++ toString n
  else if n < 1000 then "0" ++ toString n
  else toString n

/-- `new Date(ms).toISOString().split('T')[0]`: the UTC calendar date
`YYYY-MM-DD` of an epoch-milliseconds instant. -/
def toISODate (ms : Int) : String :=
  let c := civilFromDays (Int.fdiv ms 86400000)
  pad4 c.1 ++ "-" ++ pad2 c.2.1 ++ "-" ++ pad2 c.2.2

/-- `new Date(ms).toTimeString().slice(0, 5)`: the `HH:MM` wall-clock of the
given *local* epoch-milliseconds value (callers add the timezone offset). -/
def hhmmOf (msLocal : Int) : String :=
  let t := Int.emod msLocal 86400000
  pad2 (Int.fdiv t 3600000) ++ ":" ++ pad2 (Int.emod (Int.fdiv t 60000) 60)

/-! ### Data model -/

/-- One upstream record, as the `for (const alert of newAlerts)` loop reads
it.  The four candidate location fields mirror
`alert.location || alert.city || alert.area || alert.name` (absent / falsy
fields are `none`); `rtime` / `rtimestamp` are the record's `time` and
`timestamp` fields as epoch milliseconds when present and valid. -/
structure RawRecord where
  rid : Option String
  location : Option String
  city : Option String
  area : Option String
  rname : Option String
  rtime : Option Int
  rtimestamp : Option Int
deriving DecidableEq

/-- A processed alert exactly as `processAlerts` builds it, including the
`raw: alert` debugging field.  `location` stays an `Option` because a record
with no usable location field stores JS `undefined` there; `timestamp` is the
epoch-milliseconds behind the stored ISO string. -/
structure Alert where
  id : String
  location : Option String
  time : String
  timestamp : Int
  date : String
  raw : RawRecord
deriving DecidableEq

/-- The `alerts.json` document: a JS object mapping date strings to arrays of
alerts, in key-insertion order. -/
abbrev AlertStore := List (String × List Alert)

/-- Reading `alerts[d]`: first matching key. -/
def lookupStore : AlertStore → String → Option (List Alert)
  | [], _ => none
  | (d0, l0) :: rest, d => if d0 = d then some l0 else lookupStore rest d

/-- Writing `alerts[d] = l`: replace the (first) existing entry in place, or
append a fresh key at the end, as JS object assignment does. -/
def setStore : AlertStore → String → List Alert → AlertStore
  | [], d, l => [(d, l)]
  | (d0, l0) :: rest, d, l =>
    if d0 = d then (d0, l) :: rest else (d0, l0) :: setStore rest d l

/-- The day's sequence used by the dedup scan and the date endpoint
(`alerts[d]`, defaulting to the empty array). -/
def dayListOf (s : AlertStore) (d : String) : List Alert :=
  (lookupStore s d).getD []

/-! ### Normalization, as inlined in the `processAlerts` loop -/

/-- `alert.location || alert.city || alert.area || alert.name`. -/
def resolvedLocation (r : RawRecord) : Option String :=
  r.location <|> r.city <|> r.area <|> r.rname

/-- String interpolation of a possibly-undefined location
(`` `${undefined}` `` is the string `"undefined"`). -/
def locString : Option String → String
  | some l => l
  | none => "undefined"

/-- `alert.time || alert.timestamp || new Date().toISOString()` as epoch
milliseconds; the final fallback is the ingestion instant `now`. -/
def alertTimeOf (now : Int) (r : RawRecord) : Int :=
  ((r.rtime <|> r.rtimestamp).getD now)

/-- ``alert.id || `${alertLocation}_${new Date(alertTime).getTime()}` ``. -/
def alertIdOf (now : Int) (r : RawRecord) : String :=
  match r.rid with
  | some i => i
  | none => locString (resolvedLocation r) ++ "_" ++ toString (alertTimeOf now r)

/-! ### Dedup & ingestion engine (`processAlerts`) -/

/-- The 5-second window scan:
`alerts[today].some(a => a.location === alertLocation && Math.abs(new Date(a.timestamp) - new Date(alertTime)) < 5000)`. -/
def isDuplicate (dayList : List Alert) (loc : Option String) (t : Int) : Bool :=
  dayList.any fun a => a.location == loc && (a.timestamp - t).natAbs < 5000

/-- In-memory state threaded through the per-record loop: the `alerts`
object, the `processedAlerts` object (as the list of ids marked `true`, in
insertion order) and the alerts accepted so far (the `io.emit('newAlert', …)`
stream). -/
structure IngestState where
  store : AlertStore
  keys : List String
  accepted : List Alert
deriving DecidableEq

/-- `const processedAlert = { id, location, time, timestamp, date, raw }`. -/
def mkProcessedAlert (now tz : Int) (today : String) (r : RawRecord) : Alert :=
  { id := alertIdOf now r,
    location := resolvedLocation r,
    time := hhmmOf (alertTimeOf now r + tz),
    timestamp := alertTimeOf now r,
    date := today,
    raw := r }

/-- The body of `for (const alert of newAlerts) { … }` for one record. -/
def processOne (now tz : Int) (today : String) (st : IngestState) (r : RawRecord) :
    IngestState :=
  if st.keys.contains (alertIdOf now r) then st
  else if isDuplicate (dayListOf st.store today) (resolvedLocation r) (alertTimeOf now r) then st
  else
    let a := mkProcessedAlert now tz today r
    { store := setStore st.store today (dayListOf st.store today ++ [a]),
      keys := st.keys ++ [alertIdOf now r],
      accepted := st.accepted ++ [a] }

/-- `if (!alerts[today]) alerts[today] = []`. -/
def ensureToday (s : AlertStore) (today : String) : AlertStore :=
  if (lookupStore s today).isSome then s else s ++ [(today, [])]

/-- The payload shapes `processAlerts` dispatches on: a bare array, an object
with an `alerts` array, an object with a `data` array, or any other truthy
value (e.g. a bare nonzero number), which leaves `newAlerts = []`. -/
inductive ApiData
  | arr (records : List RawRecord)
  | withAlerts (records : List RawRecord)
  | withData (records : List RawRecord)
  | other
deriving DecidableEq

/-- The `newAlerts` array selected by the shape dispatch. -/
def extractRecords : ApiData → List RawRecord
  | .arr rs => rs
  | .withAlerts rs => rs
  | .withData rs => rs
  | .other => []

/-- One full ingestion cycle (`processAlerts`): `none` models a falsy
`apiData` (the early `return` before anything is loaded or saved); otherwise
`today` is derived from `now`, today's bucket is created if missing, the
records of the recognized shape are processed in order, and the resulting
documents are what `saveData` persists.  `tz` is the server's local-time
offset in milliseconds (used only by `toTimeString`). -/
def processAlerts (apiData : Option ApiData) (alerts0 : AlertStore)
    (keys0 : List String) (now tz : Int) : IngestState :=
  match apiData with
  | none => { store := alerts0, keys := keys0, accepted := [] }
  | some d =>
    let today := toISODate now
    let alerts1 := ensureToday alerts0 today
    (extractRecords d).foldl (processOne now tz today)
      { store := alerts1, keys := keys0, accepted := [] }

/-! ### Retention sweeper (`cleanOldData`) -/

/-- `parseInt(id.split('_')[1]) || Date.now()`: the second
underscore-separated component of the id, decimal-parsed; `NaN` (no parse,
missing component) *and a parsed `0`* (JS falsiness) both fall back to the
current time. -/
def embeddedMillis (id : String) (now : Int) : Int :=
  match (jsSplit id '_').drop 1 with
  | [] => now
  | comp :: _ =>
    match parseIntOpt comp with
    | none => now
    | some t => if t = 0 then now else t

/-- `cleanOldData`: keep exactly the entries whose (fallback-adjusted)
embedded timestamp is strictly newer than `now` minus 7 days. -/
def cleanOldData (keys : List String) (now : Int) : List String :=
  keys.filter fun id => decide (now - 7 * 24 * 60 * 60 * 1000 < embeddedMillis id now)

/-! ### Read endpoints -/

/-- `GET /api/alerts/:date` — `alerts[date]` or the empty array (an empty
stored array is truthy in JS, so both branches serve the same list). -/
def getAlertsByDate (s : AlertStore) (d : String) : List Alert :=
  dayListOf s d

/-- Stable insertion of an alert into a list already sorted by descending
`timestamp`: the alert passes over strictly-newer entries and lands before
the first entry that is not newer. -/
def insertByTsDesc (a : Alert) : List Alert → List Alert
  | [] => [a]
  | b :: bs => if a.timestamp < b.timestamp then b :: insertByTsDesc a bs else a :: b :: bs

/-- `allAlerts.sort((a, b) => new Date(b.timestamp) - new Date(a.timestamp))`:
a stable sort by descending timestamp (ECMAScript `Array.prototype.sort` is
stable, and a stable sort is determined by the comparator, so insertion sort
realizes it). -/
def sortByTsDesc (l : List Alert) : List Alert :=
  l.foldr insertByTsDesc []

/-- `Array.prototype.slice(start, end)` with `ToIntegerOrInfinity` index
clamping. -/
def jsSlice (l : List Alert) (start fin : Int) : List Alert :=
  let len : Int := l.length
  let k := if start < 0 then max (len + start) 0 else min start len
  let f := if fin < 0 then max (len + fin) 0 else min fin len
  (l.drop k.toNat).take (f - k).toNat

/-- The first `slice` argument: the destructured `offset` (query string, or
the number `0` when the parameter is absent). -/
def sliceStart (offsetQ : Option String) : Int :=
  match offsetQ with
  | none => 0
  | some o => jsNumberInt o

/-- The second `slice` argument, `offset + limit`: number addition only when
both parameters are absent (their numeric defaults `0` and `100`); as soon as
one of them is a query string, JS `+` concatenates and the digits are glued
together before `slice` re-coerces them. -/
def sliceEnd (limitQ offsetQ : Option String) : Int :=
  match offsetQ, limitQ with
  | none, none => 100
  | none, some l => jsNumberInt ("0" ++ l)
  | some o, none => jsNumberInt (o ++ "100")
  | some o, some l => jsNumberInt (o ++ l)

/-- The date-range filter `(!from || date >= from) && (!to || date <= to)`. -/
def inDateRange (fromQ toQ : Option String) (d : String) : Bool :=
  (match fromQ with | none => true | some f => decide (f ≤ d)) &&
  (match toQ with | none => true | some t => decide (d ≤ t))

/-- The `{alerts, total, limit, offset}` response body; `limit` and `offset`
are echoed back through `parseInt` (`none` models `NaN`, serialized as
`null`). -/
structure AlertsResponse where
  alerts : List Alert
  total : Nat
  rlimit : Option Int
  roffset : Option Int
deriving DecidableEq

/-- `GET /api/alerts?from&to&limit&offset`: concatenate the in-range day
buckets in store order, sort by timestamp descending, slice, and echo the
pagination parameters. -/
def getAlertsPaged (s : AlertStore) (fromQ toQ limitQ offsetQ : Option String) :
    AlertsResponse :=
  let allAlerts := s.foldl
    (fun acc p => if inDateRange fromQ toQ p.1 then acc ++ p.2 else acc) []
  let sorted := sortByTsDesc allAlerts
  { alerts := jsSlice sorted (sliceStart offsetQ) (sliceEnd limitQ offsetQ),
    total := sorted.length,
    rlimit := match limitQ with | none => some 100 | some l => parseIntOpt l,
    roffset := match offsetQ with | none => some 0 | some o => parseIntOpt o }

/-! ### Statistics aggregator (`GET /api/stats`) -/

/-- `if (!m[k]) m[k] = 0; m[k]++` on a JS object: increment in place, or
append a fresh key with count 1. -/
def bump {α : Type} [DecidableEq α] : List (α × Nat) → α → List (α × Nat)
  | [], k => [(k, 1)]
  | (k0, c0) :: rest, k =>
    if k0 = k then (k0, c0 + 1) :: rest else (k0, c0) :: bump rest k

/-- Reading `m[k]` with default 0. -/
def countOf {α : Type} [DecidableEq α] : List (α × Nat) → α → Nat
  | [], _ => 0
  | (k0, c0) :: rest, k => if k0 = k then c0 else countOf rest k

/-- `parseInt(alert.time.split(':')[0])`; `none` is the `NaN` key. -/
def hourOf (time : String) : Option Int :=
  parseIntOpt ((jsSplit time ':').headD "")

/-- The stats response body. -/
structure Stats where
  totalDays : Nat
  totalAlerts : Nat
  alertsByLocation : List (Option String × Nat)
  alertsByHour : List (Option Int × Nat)
  mostActiveDay : Option (String × Nat)
  mostActiveLocation : Option (Option String)
deriving DecidableEq

/-- The inner loop over one alert: bump the location count, update the
most-active-location leader under a strict `>` against the running maximum,
and bump the hour count.  The second component is `maxLocationCount`. -/
def statsAlertStep (st : Stats × Nat) (a : Alert) : Stats × Nat :=
  let stats := st.1
  let byLoc := bump stats.alertsByLocation a.location
  let c := countOf byLoc a.location
  let leaderUpd := c > st.2
  { stats with
      alertsByLocation := byLoc,
      mostActiveLocation := if leaderUpd then some a.location else stats.mostActiveLocation,
      alertsByHour := bump stats.alertsByHour (hourOf a.time) }
  |> fun s => (s, if leaderUpd then c else st.2)

/-- The outer loop over one `(date, dateAlerts)` entry.  The middle component
is `maxAlertsInDay`. -/
def statsDayStep (st : Stats × Nat × Nat) (p : String × List Alert) : Stats × Nat × Nat :=
  let stats := st.1
  let dayUpd := p.2.length > st.2.1
  let stats1 :=
    { stats with
        totalAlerts := stats.totalAlerts + p.2.length,
        mostActiveDay := if dayUpd then some (p.1, p.2.length) else stats.mostActiveDay }
  let inner := p.2.foldl statsAlertStep (stats1, st.2.2)
  (inner.1, (if dayUpd then p.2.length else st.2.1), inner.2)

/-- `GET /api/stats`: fold the store in entry order exactly as the route
handler's nested loops do. -/
def computeStats (s : AlertStore) : Stats :=
  let init : Stats :=
    { totalDays := s.length, totalAlerts := 0, alertsByLocation := [],
      alertsByHour := [], mostActiveDay := none, mostActiveLocation := none }
  (s.foldl statsDayStep (init, 0, 0)).1

/-! ### Reachable states and the dedup invariants -/

/-- States of the two persisted documents reachable from the empty documents
by ingestion cycles (`processAlerts`) and retention sweeps (`cleanOldData`). -/
inductive Reachable : AlertStore → List String → Prop
  | empty : Reachable [] []
  | ingest (d : Option ApiData) (now tz : Int) {s : AlertStore} {k : List String} :
      Reachable s k →
      Reachable (processAlerts d s k now tz).store (processAlerts d s k now tz).keys
  | sweep (now : Int) {s : AlertStore} {k : List String} :
      Reachable s k → Reachable s (cleanOldData k now)

/-- Two alerts are window-separated when, if they share a location, their
timestamps are at least 5000 ms apart. -/
def WindowSep (a b : Alert) : Prop :=
  a.location = b.location → 5000 ≤ (a.timestamp - b.timestamp).natAbs

/-- The window-dedup invariant: every day's sequence is pairwise
window-separated. -/
def WindowOK (s : AlertStore) : Prop :=
  ∀ p ∈ s, p.2.Pairwise WindowSep

/-- Number of alerts carrying a given id anywhere in the store. -/
def countId (s : AlertStore) (i : String) : Nat :=
  s.foldl (fun n p => n + (p.2.filter fun a => a.id = i).length) 0

/-! ### Concrete fixtures used by counterexamples and witnesses -/

/-- A record with every upstream field absent. -/
def emptyRec : RawRecord := ⟨none, none, none, none, none, none, none⟩

/-- An alert already sitting in today's sequence (location `L`, epoch 0). -/
def exA0 : Alert :=
  { id := "a0", location := some "L", time := "00:00", timestamp := 0,
    date := "1970-01-01", raw := emptyRec }

/-- A candidate landing 3000 ms after `exA0` at the same location, under a
fresh id. -/
def exDupRec : RawRecord :=
  { emptyRec with rid := some "c1", location := some "L", rtime := some 3000 }

/-- In-memory state holding just `exA0` under today's date. -/
def exDupState : IngestState := ⟨[("1970-01-01", [exA0])], [], []⟩

/-- Three alerts on one date, timestamps strictly descending. -/
def exB1 : Alert :=
  { id := "b1", location := some "L", time := "00:00", timestamp := 3000,
    date := "1970-01-01", raw := emptyRec }

def exB2 : Alert := { exB1 with id := "b2", timestamp := 2000 }

def exB3 : Alert := { exB1 with id := "b3", timestamp := 1000 }

/-- A stored history of three alerts sorted descending by timestamp. -/
def exPagedStore : AlertStore := [("1970-01-01", [exB1, exB2, exB3])]

/-- A record whose upstream id ends in `_1`, so the sweeper parses `1` as its
embedded millis. -/
def exRecA : RawRecord :=
  { emptyRec with rid := some "a_1", location := some "L", rtime := some 0 }

/-- A later record reusing the id `a_1` at another location. -/
def exRecB : RawRecord :=
  { emptyRec with rid := some "a_1", location := some "M", rtime := some 1000000000000 }

/-- A record carrying epoch time 0, ingested one day later. -/
def exRec4 : RawRecord :=
  { emptyRec with rid := some "x", location := some "L", rtime := some 0 }

/-- The three-alert single-date store of the aggregation test. -/
def exStatsStore : AlertStore :=
  [("2024-01-01",
    [{ id := "1", location := some "A", time := "08:00", timestamp := 0,
       date := "2024-01-01", raw := emptyRec },
     { id := "2", location := some "A", time := "09:00", timestamp := 0,
       date := "2024-01-01", raw := emptyRec },
     { id := "3", location := some "B", time := "08:30", timestamp := 0,
       date := "2024-01-01", raw := emptyRec }])]

/-! ## Claim theorems -/

/-- C1 (counterexample): a candidate whose id `c1` is not yet processed and
which falls 3000 ms from a same-location alert in today's sequence is
window-deduplicated, yet the loop does **not** mark `keys[c1] = true` — it
leaves the whole state untouched, contradicting the claim that the duplicate
branch records the id. -/
theorem C1_counterexample :
    alertIdOf 0 exDupRec ∉ exDupState.keys ∧
    isDuplicate (dayListOf exDupState.store "1970-01-01") (resolvedLocation exDupRec)
      (alertTimeOf 0 exDupRec) = true ∧
    alertIdOf 0 exDupRec ∉ (processOne 0 0 "1970-01-01" exDupState exDupRec).keys := by
  decide

/-- C2 (code evaluation at the failing input): over a stored history of three
alerts with strictly descending timestamps, `GET /api/alerts?limit=1&offset=1`
concatenates the query strings (`offset + limit` is `"11"`), so the handler
slices `[1, 11)` and returns **two** alerts — the second and third most
recent — while still echoing `total = 3`, `limit = 1`, `offset = 1`. -/
theorem C2_code_eval :
    getAlertsPaged exPagedStore none none (some "1") (some "1") =
      { alerts := [exB2, exB3], total := 3, rlimit := some 1, roffset := some 1 } ∧
    (getAlertsPaged exPagedStore none none (some "1") (some "1")).alerts.length ≠ 1 := by
  decide

/-- C3 (counterexample): ingesting a record with upstream id `a_1`, sweeping
the key table 7+ days later (which drops `a_1`, parsing its `_1` suffix as
embedded millis), and re-ingesting a record with the same id yields a
reachable store in which two alerts share the id `a_1` — the identity-dedup
half of the claimed invariant fails, because the sweeper prunes keys while
the alert history is never pruned. -/
theorem C3_counterexample :
    Reachable
      (processAlerts (some (.arr [exRecB]))
        (processAlerts (some (.arr [exRecA])) [] [] 0 0).store
        (cleanOldData (processAlerts (some (.arr [exRecA])) [] [] 0 0).keys 1000000000000)
        1000000000000 0).store
      (processAlerts (some (.arr [exRecB]))
        (processAlerts (some (.arr [exRecA])) [] [] 0 0).store
        (cleanOldData (processAlerts (some (.arr [exRecA])) [] [] 0 0).keys 1000000000000)
        1000000000000 0).keys ∧
    countId
      (processAlerts (some (.arr [exRecB]))
        (processAlerts (some (.arr [exRecA])) [] [] 0 0).store
        (cleanOldData (processAlerts (some (.arr [exRecA])) [] [] 0 0).keys 1000000000000)
        1000000000000 0).store "a_1" = 2 := by
  refine ⟨?_, by decide⟩
  exact .ingest _ _ _ (.sweep _ (.ingest _ _ _ .empty))

/-- C4 (counterexample): a record carrying epoch time 0 ingested at epoch
86400000 (with the server clock in UTC, offset 0) is stored with
`date = "1970-01-02"` — the UTC date of the ingestion instant — while the
calendar date of its `timestamp` field is `"1970-01-01"`; the stored `date`
is not the calendar date of `timestamp`. -/
theorem C4_counterexample :
    (processAlerts (some (.arr [exRec4])) [] [] 86400000 0).accepted.map
      (fun a => (a.date, toISODate a.timestamp)) = [("1970-01-02", "1970-01-01")] ∧
    ("1970-01-02" : String) ≠ "1970-01-01" := by
  decide

/-- C6 (counterexample): a truthy payload of unrecognized shape (e.g. a bare
nonzero number) does **not** leave the persisted AlertStore unchanged — the
cycle still runs, creates today's empty bucket, and saves it: starting from
the empty store it persists `{"1970-01-01": []}`. -/
theorem C6_counterexample :
    (processAlerts (some .other) [] [] 0 0).store = [("1970-01-01", [])] ∧
    ([("1970-01-01", ([] : List Alert))] : AlertStore) ≠ [] := by
  decide

/-- C8 (counterexample): the entry `x_0` embeds the millis component 0,
which is older than 7 days relative to `now = 10^12`, yet the sweeper keeps
it: `parseInt` yields the falsy `0`, so `|| Date.now()` replaces it with the
current time and the entry is treated as fresh. -/
theorem C8_counterexample :
    cleanOldData ["x_0"] 1000000000000 = ["x_0"] ∧
    parseIntOpt (((jsSplit "x_0" '_').drop 1).headD "") = some 0 ∧
    (0 : Int) ≤ 1000000000000 - 7 * 24 * 60 * 60 * 1000 := by
  decide

/-- C9: on the single-date store with (location, time) pairs
`("A","08:00"), ("A","09:00"), ("B","08:30")` in insertion order, the stats
endpoint computes `alertsByLocation = {A: 2, B: 1}`,
`alertsByHour = {8: 2, 9: 1}`, and `mostActiveLocation = "A"` (the first
location to reach the maximum under the strict `>` scan). -/
theorem C9_aggregation :
    countOf (computeStats exStatsStore).alertsByLocation (some "A") = 2 ∧
    countOf (computeStats exStatsStore).alertsByLocation (some "B") = 1 ∧
    (computeStats exStatsStore).alertsByLocation.length = 2 ∧
    countOf (computeStats exStatsStore).alertsByHour (some 8) = 2 ∧
    countOf (computeStats exStatsStore).alertsByHour (some 9) = 1 ∧
    (computeStats exStatsStore).alertsByHour.length = 2 ∧
    (computeStats exStatsStore).mostActiveLocation = some (some "A") ∧
    (computeStats exStatsStore).totalAlerts = 3 ∧
    (computeStats exStatsStore).totalDays = 1 := by
  decide

/-- C1 (amended): a candidate whose id is not yet in the processed-keys table
but which matches a same-location alert of today's sequence within (strictly
less than) 5000 ms is dropped silently: the loop body neither appends it nor
touches the keys table or the accepted stream — the state is returned
unchanged, so the id stays unmarked and the candidate is simply re-examined
(and re-dropped) in later cycles. -/
theorem C1_amended_dup_skip (now tz : Int) (today : String) (st : IngestState)
    (r : RawRecord)
    (h1 : st.keys.contains (alertIdOf now r) = false)
    (h2 : isDuplicate (dayListOf st.store today) (resolvedLocation r)
      (alertTimeOf now r) = true) :
    processOne now tz today st r = st := by
  simp [processOne, h1, h2]

/-- C1 (witness): the amended behaviour at the concrete duplicate scenario. -/
theorem C1_witness : processOne 0 0 "1970-01-01" exDupState exDupRec = exDupState :=
  C1_amended_dup_skip 0 0 "1970-01-01" exDupState exDupRec (by decide) (by decide)

/-- C6 (amended): a falsy payload returns before anything is loaded, so both
documents are untouched and nothing is accepted; a truthy payload of
unrecognized shape (no array, no `alerts`, no `data`) yields zero candidates
and zero accepted alerts and leaves the keys table unchanged, but the cycle
still runs to the save: the persisted AlertStore is the old one with an empty
bucket for today's date created if it was absent. -/
theorem C6_amended_failure_and_unrecognized (s : AlertStore) (k : List String)
    (now tz : Int) :
    processAlerts none s k now tz = ⟨s, k, []⟩ ∧
    processAlerts (some .other) s k now tz =
      ⟨ensureToday s (toISODate now), k, []⟩ := by
  exact ⟨rfl, rfl⟩

/-- C7: two candidates with the same location arriving in one batch into the
empty store (hence an empty day) are window-deduplicated to a single stored
alert when their timestamps are 3000 ms apart, while 6000 ms apart both are
stored — the window comparison is strict `< 5000`. -/
theorem C7_window_dedup_3000_6000 (loc : String) (now tz t : Int) :
    (dayListOf
      (processAlerts (some (.arr
        [{ emptyRec with rid := some "a", location := some loc, rtime := some t },
         { emptyRec with rid := some "b", location := some loc, rtime := some (t + 3000) }]))
        [] [] now tz).store (toISODate now)).length = 1 ∧
    (dayListOf
      (processAlerts (some (.arr
        [{ emptyRec with rid := some "a", location := some loc, rtime := some t },
         { emptyRec with rid := some "b", location := some loc, rtime := some (t + 6000) }]))
        [] [] now tz).store (toISODate now)).length = 2 := by
  constructor <;>
    simp [processAlerts, processOne, ensureToday, extractRecords, emptyRec,
      alertIdOf, alertTimeOf, resolvedLocation, isDuplicate, dayListOf,
      lookupStore, setStore, mkProcessedAlert]

/-! ## Helper lemmas about the store and the ingestion loop -/

theorem lookup_setStore_self (s : AlertStore) (d : String) (l : List Alert) :
    lookupStore (setStore s d l) d = some l := by
  induction s with
  | nil => simp [setStore, lookupStore]
  | cons p rest ih =>
    by_cases h : p.1 = d
    · simp [setStore, lookupStore, h]
    · simp [setStore, lookupStore, h, ih]

theorem lookup_setStore_other (s : AlertStore) (d d' : String) (l : List Alert)
    (h : d' ≠ d) : lookupStore (setStore s d l) d' = lookupStore s d' := by
  have hdd : ¬ d = d' := fun hh => h hh.symm
  induction s with
  | nil => simp [setStore, lookupStore, hdd]
  | cons p rest ih =>
    by_cases hp : p.1 = d
    · simp [setStore, lookupStore, hp, hdd]
    · by_cases hp' : p.1 = d'
      · simp [setStore, lookupStore, hp, hp', h]
      · simp [setStore, lookupStore, hp, hp', ih]

theorem dayListOf_setStore_self (s : AlertStore) (d : String) (l : List Alert) :
    dayListOf (setStore s d l) d = l := by
  simp [dayListOf, lookup_setStore_self]

theorem dayListOf_setStore_other (s : AlertStore) (d d' : String) (l : List Alert)
    (h : d' ≠ d) : dayListOf (setStore s d l) d' = dayListOf s d' := by
  simp [dayListOf, lookup_setStore_other s d d' l h]

theorem keys_mono_processOne (now tz : Int) (today : String) (st : IngestState)
    (r : RawRecord) {x : String} (h : x ∈ st.keys) :
    x ∈ (processOne now tz today st r).keys := by
  unfold processOne
  split
  · exact h
  · split
    · exact h
    · simpa using Or.inl h

theorem day_mono_processOne (now tz : Int) (today : String) (st : IngestState)
    (r : RawRecord) {d0 : String} {a : Alert} (h : a ∈ dayListOf st.store d0) :
    a ∈ dayListOf (processOne now tz today st r).store d0 := by
  unfold processOne
  split
  · exact h
  · split
    · exact h
    · show a ∈ dayListOf (setStore st.store today _) d0
      by_cases hd : d0 = today
      · subst hd
        rw [dayListOf_setStore_self]
        exact List.mem_append.mpr (Or.inl h)
      · rwa [dayListOf_setStore_other _ _ _ _ hd]

theorem isSome_mono_processOne (now tz : Int) (today : String) (st : IngestState)
    (r : RawRecord) {d0 : String}
    (h : (lookupStore st.store d0).isSome) :
    (lookupStore (processOne now tz today st r).store d0).isSome := by
  unfold processOne
  split
  · exact h
  · split
    · exact h
    · show (lookupStore (setStore st.store today _) d0).isSome
      by_cases hd : d0 = today
      · subst hd; rw [lookup_setStore_self]; rfl
      · rwa [lookup_setStore_other _ _ _ _ hd]

theorem keys_mono_foldl (now tz : Int) (today : String) :
    ∀ (recs : List RawRecord) (st : IngestState) {x : String}, x ∈ st.keys →
      x ∈ (recs.foldl (processOne now tz today) st).keys := by
  intro recs
  induction recs with
  | nil => intro st x h; exact h
  | cons r rs ih =>
    intro st x h
    exact ih _ (keys_mono_processOne now tz today st r h)

theorem day_mono_foldl (now tz : Int) (today : String) :
    ∀ (recs : List RawRecord) (st : IngestState) {d0 : String} {a : Alert},
      a ∈ dayListOf st.store d0 →
      a ∈ dayListOf ((recs.foldl (processOne now tz today) st).store) d0 := by
  intro recs
  induction recs with
  | nil => intro st d0 a h; exact h
  | cons r rs ih =>
    intro st d0 a h
    exact ih _ (day_mono_processOne now tz today st r h)

theorem isSome_mono_foldl (now tz : Int) (today : String) :
    ∀ (recs : List RawRecord) (st : IngestState) {d0 : String},
      (lookupStore st.store d0).isSome →
      (lookupStore ((recs.foldl (processOne now tz today) st).store) d0).isSome := by
  intro recs
  induction recs with
  | nil => intro st d0 h; exact h
  | cons r rs ih =>
    intro st d0 h
    exact ih _ (isSome_mono_processOne now tz today st r h)

theorem contains_iff_mem {l : List String} {x : String} :
    l.contains x = true ↔ x ∈ l :=
  List.elem_iff

theorem isDuplicate_mono {l1 l2 : List Alert} {loc : Option String} {t : Int}
    (hsub : ∀ a ∈ l1, a ∈ l2) (h : isDuplicate l1 loc t = true) :
    isDuplicate l2 loc t = true := by
  simp only [isDuplicate, List.any_eq_true] at h ⊢
  obtain ⟨a, ha, hp⟩ := h
  exact ⟨a, hsub a ha, hp⟩

/-- After a batch has been folded, every record of the batch is *handled* in
the final state: its id is marked, or a same-location alert within the window
sits in today's final sequence. -/
theorem foldl_handles (now tz : Int) (today : String) :
    ∀ (recs : List RawRecord) (st : IngestState) (r : RawRecord), r ∈ recs →
      alertIdOf now r ∈ (recs.foldl (processOne now tz today) st).keys ∨
      isDuplicate (dayListOf ((recs.foldl (processOne now tz today) st).store) today)
        (resolvedLocation r) (alertTimeOf now r) = true := by
  intro recs
  induction recs with
  | nil => intro st r h; cases h
  | cons r0 rs ih =>
    intro st r hr
    simp only [List.foldl_cons]
    rcases List.mem_cons.mp hr with h | h
    · subst h
      by_cases h1 : st.keys.contains (alertIdOf now r) = true
      · left
        have : alertIdOf now r ∈ st.keys := contains_iff_mem.mp h1
        exact keys_mono_foldl now tz today rs _
          (keys_mono_processOne now tz today st r this)
      · by_cases h2 : isDuplicate (dayListOf st.store today) (resolvedLocation r)
            (alertTimeOf now r) = true
        · right
          have hstep : processOne now tz today st r = st := by
            unfold processOne
            simp [h2]
          rw [hstep]
          refine isDuplicate_mono ?_ h2
          intro a ha
          exact day_mono_foldl now tz today rs _ ha
        · left
          have hm : alertIdOf now r ∉ st.keys :=
            fun hmem => h1 (contains_iff_mem.mpr hmem)
          have hstep : (processOne now tz today st r).keys =
              st.keys ++ [alertIdOf now r] := by
            unfold processOne
            simp [h1, h2, hm]
          refine keys_mono_foldl now tz today rs _ ?_
          rw [hstep]
          simp
    · exact ih _ r h

/-- A record that is already handled relative to the current state is a
no-op for the loop body. -/
theorem processOne_skip (now tz : Int) (today : String) (st : IngestState)
    (r : RawRecord)
    (h : alertIdOf now r ∈ st.keys ∨
      isDuplicate (dayListOf st.store today) (resolvedLocation r)
        (alertTimeOf now r) = true) :
    processOne now tz today st r = st := by
  rcases h with h | h
  · unfold processOne
    have hc : st.keys.contains (alertIdOf now r) = true := contains_iff_mem.mpr h
    simp [hc, h]
  · unfold processOne
    simp [h]

/-- Folding a batch whose every record is already handled leaves the state
untouched. -/
theorem foldl_noop (now tz : Int) (today : String) :
    ∀ (recs : List RawRecord) (st : IngestState),
      (∀ r ∈ recs, alertIdOf now r ∈ st.keys ∨
        isDuplicate (dayListOf st.store today) (resolvedLocation r)
          (alertTimeOf now r) = true) →
      recs.foldl (processOne now tz today) st = st := by
  intro recs
  induction recs with
  | nil => intro st _; rfl
  | cons r0 rs ih =>
    intro st h
    have h0 : processOne now tz today st r0 = st :=
      processOne_skip now tz today st r0 (h r0 (List.mem_cons_self _ _))
    show rs.foldl (processOne now tz today) (processOne now tz today st r0) = st
    rw [h0]
    exact ih st fun r hr => h r (List.mem_cons_of_mem _ hr)

theorem lookup_ensureToday_isSome (s : AlertStore) (d : String) :
    (lookupStore (ensureToday s d) d).isSome := by
  unfold ensureToday
  split
  · assumption
  · rename_i h
    induction s with
    | nil => simp [lookupStore]
    | cons p rest ih =>
      by_cases hp : p.1 = d
      · simp [lookupStore, hp]
      · simp only [lookupStore, List.cons_append, hp, if_false] at h ⊢
        exact ih h

theorem ensureToday_of_isSome (s : AlertStore) (d : String)
    (h : (lookupStore s d).isSome) : ensureToday s d = s := by
  unfold ensureToday
  simp [h]

theorem processAlerts_some_eq (dd : ApiData) (s : AlertStore) (k : List String)
    (now tz : Int) :
    processAlerts (some dd) s k now tz =
      (extractRecords dd).foldl (processOne now tz (toISODate now))
        ⟨ensureToday s (toISODate now), k, []⟩ := rfl

/-- C5: one ingestion cycle is idempotent on the alert store — feeding the
same payload again at the same instant (the same day, no intervening
operations) leaves the persisted AlertStore exactly as the first cycle left
it: every record of the batch is already handled, either through its marked
id or through the same-day window scan against the alert its first copy
stored. -/
theorem C5_ingest_idempotent (d : Option ApiData) (s : AlertStore)
    (k : List String) (now tz : Int) :
    (processAlerts d (processAlerts d s k now tz).store
      (processAlerts d s k now tz).keys now tz).store =
      (processAlerts d s k now tz).store := by
  cases d with
  | none => rfl
  | some dd =>
    rw [processAlerts_some_eq dd s k now tz, processAlerts_some_eq]
    have hsome : (lookupStore
        ((extractRecords dd).foldl (processOne now tz (toISODate now))
          ⟨ensureToday s (toISODate now), k, []⟩).store (toISODate now)).isSome :=
      isSome_mono_foldl now tz (toISODate now) _ _
        (lookup_ensureToday_isSome s (toISODate now))
    rw [ensureToday_of_isSome _ _ hsome]
    have hnoop := foldl_noop now tz (toISODate now) (extractRecords dd)
      ⟨((extractRecords dd).foldl (processOne now tz (toISODate now))
          ⟨ensureToday s (toISODate now), k, []⟩).store,
        ((extractRecords dd).foldl (processOne now tz (toISODate now))
          ⟨ensureToday s (toISODate now), k, []⟩).keys, []⟩
      (fun r hr =>
        foldl_handles now tz (toISODate now) (extractRecords dd)
          ⟨ensureToday s (toISODate now), k, []⟩ r hr)
    rw [hnoop]

theorem processOne_accepted_cases (now tz : Int) (today : String)
    (st : IngestState) (r : RawRecord) :
    (processOne now tz today st r).accepted = st.accepted ∨
    (processOne now tz today st r).accepted =
      st.accepted ++ [mkProcessedAlert now tz today r] := by
  unfold processOne
  split
  · exact Or.inl rfl
  · split
    · exact Or.inl rfl
    · exact Or.inr rfl

theorem mem_accepted_foldl (now tz : Int) (today : String) :
    ∀ (recs : List RawRecord) (st : IngestState) {a : Alert},
      a ∈ (recs.foldl (processOne now tz today) st).accepted →
      a ∈ st.accepted ∨ ∃ r ∈ recs, a = mkProcessedAlert now tz today r := by
  intro recs
  induction recs with
  | nil => intro st a h; exact Or.inl h
  | cons r0 rs ih =>
    intro st a h
    simp only [List.foldl_cons] at h
    rcases ih _ h with h1 | ⟨r, hr, rfl⟩
    · rcases processOne_accepted_cases now tz today st r0 with he | he
      · rw [he] at h1; exact Or.inl h1
      · rw [he] at h1
        rcases List.mem_append.mp h1 with h2 | h2
        · exact Or.inl h2
        · exact Or.inr ⟨r0, List.mem_cons_self _ _, (List.mem_singleton.mp h2)⟩
    · exact Or.inr ⟨r, List.mem_cons_of_mem _ hr, rfl⟩

theorem processOne_day_cases (now tz : Int) (today : String) (st : IngestState)
    (r : RawRecord) {d0 : String} {a : Alert}
    (h : a ∈ dayListOf (processOne now tz today st r).store d0) :
    a ∈ dayListOf st.store d0 ∨ a = mkProcessedAlert now tz today r := by
  unfold processOne at h
  split at h
  · exact Or.inl h
  · split at h
    · exact Or.inl h
    · show a ∈ dayListOf st.store d0 ∨ _
      by_cases hd : d0 = today
      · subst hd
        rw [dayListOf_setStore_self] at h
        rcases List.mem_append.mp h with h1 | h1
        · exact Or.inl h1
        · exact Or.inr (List.mem_singleton.mp h1)
      · rw [dayListOf_setStore_other _ _ _ _ hd] at h
        exact Or.inl h

theorem mem_day_foldl (now tz : Int) (today : String) :
    ∀ (recs : List RawRecord) (st : IngestState) {d0 : String} {a : Alert},
      a ∈ dayListOf ((recs.foldl (processOne now tz today) st).store) d0 →
      a ∈ dayListOf st.store d0 ∨ ∃ r ∈ recs, a = mkProcessedAlert now tz today r := by
  intro recs
  induction recs with
  | nil => intro st d0 a h; exact Or.inl h
  | cons r0 rs ih =>
    intro st d0 a h
    simp only [List.foldl_cons] at h
    rcases ih _ h with h1 | ⟨r, hr, rfl⟩
    · rcases processOne_day_cases now tz today st r0 h1 with h2 | h2
      · exact Or.inl h2
      · exact Or.inr ⟨r0, List.mem_cons_self _ _, h2⟩
    · exact Or.inr ⟨r, List.mem_cons_of_mem _ hr, rfl⟩

/-- C4 (amended): every alert accepted by an ingestion cycle has
`date` equal to the **UTC** calendar date of the **ingestion instant** `now`
(not of its own `timestamp`), and `time` equal to the `HH:MM` wall-clock of
its `timestamp` in the **server's local zone** (the timestamp shifted by the
timezone offset), i.e. `toTimeString`, not a truncation of the stored UTC ISO
string. -/
theorem C4_amended_date_time_fields (d : Option ApiData) (s : AlertStore)
    (k : List String) (now tz : Int) :
    ∀ a ∈ (processAlerts d s k now tz).accepted,
      a.date = toISODate now ∧ a.time = hhmmOf (a.timestamp + tz) := by
  intro a ha
  cases d with
  | none => simp [processAlerts] at ha
  | some dd =>
    rw [processAlerts_some_eq] at ha
    rcases mem_accepted_foldl now tz (toISODate now) _ _ ha with h | ⟨r, _, rfl⟩
    · simp at h
    · exact ⟨rfl, rfl⟩

/-- C4 (witness): the amended field equations at the concrete accepted
alert of the counterexample run. -/
theorem C4_witness :
    (mkProcessedAlert 86400000 0 "1970-01-02" exRec4).date = toISODate 86400000 ∧
    (mkProcessedAlert 86400000 0 "1970-01-02" exRec4).time =
      hhmmOf ((mkProcessedAlert 86400000 0 "1970-01-02" exRec4).timestamp + 0) :=
  C4_amended_date_time_fields (some (.arr [exRec4])) [] [] 86400000 0
    (mkProcessedAlert 86400000 0 "1970-01-02" exRec4) (by decide)

theorem lookup_append_of_some (s : AlertStore) (q : String × List Alert)
    {d0 : String} {l0 : List Alert} (h : lookupStore s d0 = some l0) :
    lookupStore (s ++ [q]) d0 = some l0 := by
  induction s with
  | nil => simp [lookupStore] at h
  | cons p rest ih =>
    by_cases hp : p.1 = d0
    · simp_all [lookupStore]
    · simp only [lookupStore, hp, if_false, List.cons_append] at h ⊢
      exact ih h

theorem lookup_append_of_none (s : AlertStore) (q : String × List Alert)
    {d0 : String} (h : lookupStore s d0 = none) :
    lookupStore (s ++ [q]) d0 = if q.1 = d0 then some q.2 else none := by
  induction s with
  | nil => simp [lookupStore]
  | cons p rest ih =>
    by_cases hp : p.1 = d0
    · simp [lookupStore, hp] at h
    · simp only [lookupStore, hp, if_false, List.cons_append] at h ⊢
      exact ih h

theorem mem_dayListOf_ensureToday {s : AlertStore} {today d0 : String} {a : Alert}
    (h : a ∈ dayListOf (ensureToday s today) d0) : a ∈ dayListOf s d0 := by
  unfold ensureToday at h
  split at h
  · exact h
  · cases hl : lookupStore s d0 with
    | some l0 =>
      unfold dayListOf at h ⊢
      rw [lookup_append_of_some s _ hl] at h
      rw [hl]
      exact h
    | none =>
      unfold dayListOf at h
      rw [lookup_append_of_none s _ hl] at h
      by_cases ht : today = d0 <;> simp [ht] at h

theorem mem_insertByTsDesc {a x : Alert} :
    ∀ {l : List Alert}, a ∈ insertByTsDesc x l → a = x ∨ a ∈ l := by
  intro l
  induction l with
  | nil => intro h; simpa [insertByTsDesc] using h
  | cons b bs ih =>
    intro h
    unfold insertByTsDesc at h
    split at h
    · rcases List.mem_cons.mp h with h1 | h1
      · exact Or.inr (List.mem_cons.mpr (Or.inl h1))
      · rcases ih h1 with h2 | h2
        · exact Or.inl h2
        · exact Or.inr (List.mem_cons.mpr (Or.inr h2))
    · rcases List.mem_cons.mp h with h1 | h1
      · exact Or.inl h1
      · exact Or.inr h1

theorem mem_sortByTsDesc {a : Alert} :
    ∀ {l : List Alert}, a ∈ sortByTsDesc l → a ∈ l := by
  intro l
  induction l with
  | nil => intro h; exact h
  | cons b bs ih =>
    intro h
    have h' : a ∈ insertByTsDesc b (sortByTsDesc bs) := h
    rcases mem_insertByTsDesc h' with h1 | h1
    · exact h1 ▸ List.mem_cons_self _ _
    · exact List.mem_cons_of_mem _ (ih h1)

theorem mem_jsSlice {a : Alert} {l : List Alert} {s e : Int}
    (h : a ∈ jsSlice l s e) : a ∈ l := by
  unfold jsSlice at h
  exact List.drop_subset _ _ (List.take_subset _ _ h)

theorem mem_collectRange (fromQ toQ : Option String) {a : Alert} :
    ∀ (S : AlertStore) (acc : List Alert),
      a ∈ S.foldl (fun acc p => if inDateRange fromQ toQ p.1 then acc ++ p.2 else acc) acc →
      a ∈ acc ∨ ∃ p ∈ S, a ∈ p.2 := by
  intro S
  induction S with
  | nil => intro acc h; exact Or.inl h
  | cons p rest ih =>
    intro acc h
    simp only [List.foldl_cons] at h
    rcases ih _ h with h1 | ⟨q, hq, ha⟩
    · split at h1
      · rcases List.mem_append.mp h1 with h2 | h2
        · exact Or.inl h2
        · exact Or.inr ⟨p, List.mem_cons_self _ _, h2⟩
      · exact Or.inl h1
    · exact Or.inr ⟨q, List.mem_cons_of_mem _ hq, ha⟩

/-- C10: every alert an ingestion cycle accepts carries, besides the five
normalized fields, the `raw` field holding the upstream record verbatim
(first conjunct); every alert found in the post-cycle store was either
already stored or is one of those accepted alerts, so the `raw` field is
persisted (second conjunct); `GET /api/alerts/:date` serves the stored day
sequence itself, and every alert served by the paginated `GET /api/alerts`
is an element of some stored day sequence, so both read endpoints return
stored alerts — `raw` included — unmodified (last two conjuncts). -/
theorem C10_raw_field (dd : ApiData) (s : AlertStore) (k : List String)
    (now tz : Int) (S : AlertStore) (day : String)
    (fromQ toQ limitQ offsetQ : Option String) :
    (∀ a ∈ (processAlerts (some dd) s k now tz).accepted,
      ∃ r ∈ extractRecords dd, a.raw = r) ∧
    (∀ d0 a, a ∈ dayListOf (processAlerts (some dd) s k now tz).store d0 →
      a ∈ dayListOf s d0 ∨ ∃ r ∈ extractRecords dd, a.raw = r) ∧
    getAlertsByDate S day = dayListOf S day ∧
    (∀ a ∈ (getAlertsPaged S fromQ toQ limitQ offsetQ).alerts,
      ∃ p ∈ S, a ∈ p.2) := by
  refine ⟨?_, ?_, rfl, ?_⟩
  · intro a ha
    rw [processAlerts_some_eq] at ha
    rcases mem_accepted_foldl now tz (toISODate now) _ _ ha with h | ⟨r, hr, rfl⟩
    · simp at h
    · exact ⟨r, hr, rfl⟩
  · intro d0 a ha
    rw [processAlerts_some_eq] at ha
    rcases mem_day_foldl now tz (toISODate now) _ _ ha with h | ⟨r, hr, rfl⟩
    · exact Or.inl (mem_dayListOf_ensureToday h)
    · exact Or.inr ⟨r, hr, rfl⟩
  · intro a ha
    have h1 : a ∈ sortByTsDesc (S.foldl
        (fun acc p => if inDateRange fromQ toQ p.1 then acc ++ p.2 else acc) []) :=
      mem_jsSlice ha
    have h2 := mem_sortByTsDesc h1
    rcases mem_collectRange fromQ toQ S [] h2 with h3 | h3
    · simp at h3
    · exact h3

/-- C10 (witness): the accepted alert of a concrete one-record cycle carries
that record verbatim in its `raw` field. -/
theorem C10_witness :
    ∃ r ∈ extractRecords (.arr [exRec4]),
      (mkProcessedAlert 86400000 0 "1970-01-02" exRec4).raw = r :=
  (C10_raw_field (.arr [exRec4]) [] [] 86400000 0 [] "1970-01-01"
      none none none none).1
    (mkProcessedAlert 86400000 0 "1970-01-02" exRec4) (by decide)

/-- C8 (amended): for an entry of the key table, the sweeper keeps it exactly
when its embedded millis — the decimal parse of the second
underscore-separated component of the id — is **nonzero** and strictly newer
than `now` minus 7 days (first conjunct; so nonzero components older than 7
days are removed and fresher ones retained); and an entry whose component is
missing, unparseable, **or parses to the falsy `0`** is treated as fresh and
kept unconditionally (second conjunct — the `0` case is what the original
claim misses). -/
theorem C8_amended_retention (keys : List String) (now : Int) (id : String)
    (h : id ∈ keys) :
    (∀ t : Int,
      parseIntOpt (((jsSplit id '_').drop 1).headD "") = some t → t ≠ 0 →
      (id ∈ cleanOldData keys now ↔ now - 7 * 24 * 60 * 60 * 1000 < t)) ∧
    ((jsSplit id '_').drop 1 = [] ∨
      parseIntOpt (((jsSplit id '_').drop 1).headD "") = none ∨
      parseIntOpt (((jsSplit id '_').drop 1).headD "") = some 0 →
      id ∈ cleanOldData keys now) := by
  constructor
  · intro t hp ht
    have he : embeddedMillis id now = t := by
      unfold embeddedMillis
      cases hsplit : (jsSplit id '_').drop 1 with
      | nil =>
        rw [hsplit] at hp
        simp [parseIntOpt, digitsAux] at hp
      | cons comp rest =>
        rw [hsplit] at hp
        simp only [List.headD_cons] at hp
        simp [hp, ht]
    unfold cleanOldData
    rw [List.mem_filter]
    simp [h, he]
  · intro hcase
    have he : embeddedMillis id now = now := by
      unfold embeddedMillis
      rcases hcase with h0 | h0 | h0
      · rw [h0]
      · cases hsplit : (jsSplit id '_').drop 1 with
        | nil => rfl
        | cons comp rest =>
          rw [hsplit] at h0
          simp only [List.headD_cons] at h0
          simp [h0]
      · cases hsplit : (jsSplit id '_').drop 1 with
        | nil => rfl
        | cons comp rest =>
          rw [hsplit] at h0
          simp only [List.headD_cons] at h0
          simp [h0]
    unfold cleanOldData
    rw [List.mem_filter]
    refine ⟨h, ?_⟩
    rw [he]
    simp only [decide_eq_true_eq]
    omega

/-- C8 (witness): a key with embedded millis 1 (ancient, nonzero) at a large
`now` — the characterization instantiates to an iff whose right side is
false, i.e. the entry is swept. -/
theorem C8_witness :
    ("L_1" ∈ cleanOldData ["L_1"] 1000000000000 ↔
      (1000000000000 : Int) - 7 * 24 * 60 * 60 * 1000 < 1) :=
  (C8_amended_retention ["L_1"] 1000000000000 "L_1" (by decide)).1 1
    (by decide) (by decide)

theorem lookup_mem {s : AlertStore} {d : String} {l : List Alert}
    (h : lookupStore s d = some l) : (d, l) ∈ s := by
  induction s with
  | nil => simp [lookupStore] at h
  | cons p rest ih =>
    obtain ⟨d0, l0⟩ := p
    by_cases hp : d0 = d
    · subst hp
      unfold lookupStore at h
      rw [if_pos rfl] at h
      cases Option.some.inj h
      exact List.mem_cons_self _ _
    · unfold lookupStore at h
      rw [if_neg hp] at h
      exact List.mem_cons_of_mem _ (ih h)

theorem pairwise_dayListOf {s : AlertStore} (hW : WindowOK s) (d : String) :
    (dayListOf s d).Pairwise WindowSep := by
  unfold dayListOf
  cases hl : lookupStore s d with
  | none => simp
  | some l => simpa using hW (d, l) (lookup_mem hl)

theorem windowOK_setStore {s : AlertStore} (hW : WindowOK s) {l : List Alert}
    (hl : l.Pairwise WindowSep) (d : String) : WindowOK (setStore s d l) := by
  induction s with
  | nil =>
    intro p hp
    unfold setStore at hp
    rw [List.mem_singleton] at hp
    subst hp
    exact hl
  | cons q rest ih =>
    intro p hp
    obtain ⟨d0, l0⟩ := q
    unfold setStore at hp
    by_cases hq : d0 = d
    · rw [if_pos hq] at hp
      rcases List.mem_cons.mp hp with h1 | h1
      · subst h1; exact hl
      · exact hW _ (List.mem_cons_of_mem _ h1)
    · rw [if_neg hq] at hp
      rcases List.mem_cons.mp hp with h1 | h1
      · subst h1; exact hW _ (List.mem_cons_self _ _)
      · exact ih (fun p' hp' => hW p' (List.mem_cons_of_mem _ hp')) p h1

theorem windowOK_ensureToday {s : AlertStore} (hW : WindowOK s) (d : String) :
    WindowOK (ensureToday s d) := by
  unfold ensureToday
  split
  · exact hW
  · intro p hp
    rcases List.mem_append.mp hp with h1 | h1
    · exact hW p h1
    · rw [List.mem_singleton] at h1
      subst h1
      exact List.Pairwise.nil

theorem not_dup_windowSep {l : List Alert} {r : RawRecord} {now tz : Int}
    {today : String}
    (h : isDuplicate l (resolvedLocation r) (alertTimeOf now r) = false) :
    ∀ b ∈ l, WindowSep b (mkProcessedAlert now tz today r) := by
  intro b hb heq
  simp only [isDuplicate] at h
  rw [List.any_eq_false] at h
  have hb' := h b hb
  have hloc : b.location = resolvedLocation r := heq
  rw [Bool.and_eq_true, not_and] at hb'
  have : ¬ ((b.timestamp - alertTimeOf now r).natAbs < 5000) := by
    intro hlt
    exact hb' (by rw [hloc]; exact beq_self_eq_true _) (by simpa using hlt)
  show 5000 ≤ (b.timestamp - (mkProcessedAlert now tz today r).timestamp).natAbs
  have hts : (mkProcessedAlert now tz today r).timestamp = alertTimeOf now r := rfl
  rw [hts]
  omega

theorem windowOK_processOne {st : IngestState} (hW : WindowOK st.store)
    (now tz : Int) (today : String) (r : RawRecord) :
    WindowOK (processOne now tz today st r).store := by
  unfold processOne
  split
  · exact hW
  · split
    · exact hW
    · rename_i hdup
      have hf : isDuplicate (dayListOf st.store today) (resolvedLocation r)
          (alertTimeOf now r) = false := by
        simpa using hdup
      apply windowOK_setStore hW
      rw [List.pairwise_append]
      refine ⟨pairwise_dayListOf hW today, List.pairwise_singleton _ _, ?_⟩
      intro a ha b hb
      rw [List.mem_singleton] at hb
      subst hb
      exact not_dup_windowSep hf a ha

theorem windowOK_foldl (now tz : Int) (today : String) :
    ∀ (recs : List RawRecord) (st : IngestState), WindowOK st.store →
      WindowOK ((recs.foldl (processOne now tz today) st).store) := by
  intro recs
  induction recs with
  | nil => intro st h; exact h
  | cons r rs ih =>
    intro st h
    exact ih _ (windowOK_processOne h now tz today r)

theorem windowOK_processAlerts (d : Option ApiData) {s : AlertStore}
    (k : List String) (now tz : Int) (hW : WindowOK s) :
    WindowOK (processAlerts d s k now tz).store := by
  cases d with
  | none => exact hW
  | some dd =>
    rw [processAlerts_some_eq]
    exact windowOK_foldl now tz (toISODate now) _ _
      (windowOK_ensureToday hW (toISODate now))

/-- C3 (amended): in every reachable state of the two documents — reachable
from the empty documents by any sequence of ingestion cycles and retention
sweeps — every day's sequence is pairwise window-separated: no two alerts of
one day share a location with timestamps strictly within 5000 ms.  (The
identity half of the original claim, that no two stored alerts ever share an
`id`, is dropped: the sweeper prunes processed keys while stored alerts are
never pruned, so a swept id can be re-ingested into a later day.) -/
theorem C3_amended_window_invariant (s : AlertStore) (k : List String)
    (h : Reachable s k) : WindowOK s := by
  induction h with
  | empty => intro p hp; cases hp
  | ingest d now tz _ ih => exact windowOK_processAlerts d _ now tz ih
  | sweep now _ ih => exact ih

/-- C3 (witness): the window invariant instantiated at the store reached by
one concrete ingestion cycle from the empty documents. -/
theorem C3_witness :
    WindowOK (processAlerts (some (.arr [exRecA])) [] [] 0 0).store :=
  C3_amended_window_invariant _ _ (.ingest (some (.arr [exRecA])) 0 0 .empty)

end AlarmGame
